import Mathlib

/-!
Shallow embedding of the Ethereum payout module
(`interledger-stream/src/ethereum.rs`): destination-address parsing,
SHA-256 payment-id generation, ABI call-data encoding, JSON-RPC response
interpretation, the payout orchestration sequence, and the best-effort
entry point.  Rust strings are modelled as Lean `String`; `str::len`
(UTF-8 byte count) is modelled by `rustLen`; machine integers (`u64`,
`u8`) are modelled as `Nat` with explicit bounds where overflow matters.
-/

set_option maxRecDepth 4096

/-- Boolean test that `pat` is a leading run of `s` (model of Rust
`str::starts_with` on the character level). -/
def hasPrefixL : List Char → List Char → Bool
  | _, [] => true
  | [], _ :: _ => false
  | c :: cs, p :: ps => c == p && hasPrefixL cs ps

/-- Boolean substring containment on character lists (model of Rust
`str::contains` with a string pattern). -/
def containsSubL : List Char → List Char → Bool
  | [], pat => hasPrefixL [] pat
  | c :: cs, pat => hasPrefixL (c :: cs) pat || containsSubL cs pat

/-- Model of Rust `Iterator::position`: index of the first element
satisfying the predicate. -/
def position {α : Type} (p : α → Bool) : List α → Option Nat
  | [] => none
  | x :: xs => if p x then some 0 else (position p xs).map (· + 1)

/-- Fuel-driven worker for `trimStartMatches`; the fuel is an upper bound
on the number of strips (each strip removes at least one character). -/
def trimStartAux : Nat → List Char → List Char → List Char
  | 0, s, _ => s
  | Nat.succ f, s, pat =>
    if pat.isEmpty then s
    else if hasPrefixL s pat then trimStartAux f (s.drop pat.length) pat
    else s

/-- Model of Rust `str::trim_start_matches`: repeatedly removes the
pattern from the front while it is a leading run. -/
def trimStartMatches (s pat : List Char) : List Char :=
  trimStartAux s.length s pat

/-- Strip one optional leading sign accepted by Rust's unsigned
`FromStr`/`from_str_radix` (a leading `+`). -/
def stripPlus (cs : List Char) : List Char :=
  match cs with
  | [] => []
  | c :: rest => if c = '+' then rest else cs

/-- Numeric value of a run of decimal digit characters. -/
def digitsVal (cs : List Char) : Nat :=
  cs.foldl (fun a c => a * 10 + (c.toNat - 48)) 0

/-- ASCII hexadecimal-digit test (`0-9`, `a-f`, `A-F`). -/
def isHexDigitC (c : Char) : Bool :=
  (48 ≤ c.toNat && c.toNat ≤ 57) || (97 ≤ c.toNat && c.toNat ≤ 102) ||
    (65 ≤ c.toNat && c.toNat ≤ 70)

/-- Numeric value of one hexadecimal digit character. -/
def hexDigitVal (c : Char) : Nat :=
  if c.toNat ≤ 57 then c.toNat - 48
  else if c.toNat ≤ 70 then c.toNat - 55
  else c.toNat - 87

/-- Numeric value of a run of hexadecimal digit characters. -/
def hexVal (cs : List Char) : Nat :=
  cs.foldl (fun a c => a * 16 + hexDigitVal c) 0

/-- Model of Rust `str::parse::<u64>()`: optional leading `+`, then a
nonempty run of ASCII decimal digits whose value fits in 64 bits. -/
def parseU64 (s : String) : Option Nat :=
  let cs := stripPlus s.data
  if cs ≠ [] ∧ cs.all Char.isDigit then
    if digitsVal cs < 18446744073709551616 then some (digitsVal cs) else none
  else none

/-- Model of Rust `u64::from_str_radix(s, 16)`: optional leading `+`,
then a nonempty run of hexadecimal digits whose value fits in 64 bits. -/
def parseHexU64 (cs0 : List Char) : Option Nat :=
  let cs := stripPlus cs0
  if cs ≠ [] ∧ cs.all isHexDigitC then
    if hexVal cs < 18446744073709551616 then some (hexVal cs) else none
  else none

/-- UTF-8 encoding of one character as a list of byte values. -/
def charUtf8 (c : Char) : List Nat :=
  let n := c.toNat
  if n < 128 then [n]
  else if n < 2048 then [192 ||| (n >>> 6), 128 ||| (n &&& 63)]
  else if n < 65536 then
    [224 ||| (n >>> 12), 128 ||| ((n >>> 6) &&& 63), 128 ||| (n &&& 63)]
  else
    [240 ||| (n >>> 18), 128 ||| ((n >>> 12) &&& 63),
      128 ||| ((n >>> 6) &&& 63), 128 ||| (n &&& 63)]

/-- UTF-8 byte sequence of a character list (model of Rust
`str::as_bytes`). -/
def listUtf8 : List Char → List Nat
  | [] => []
  | c :: cs => charUtf8 c ++ listUtf8 cs

/-- Model of Rust `str::len`: number of UTF-8 bytes. -/
def rustLen (s : String) : Nat :=
  (listUtf8 s.data).length

/-- Lowercase hexadecimal digit character for a value below 16. -/
def hexDigitChar (n : Nat) : Char :=
  Char.ofNat (if n < 10 then 48 + n else 87 + n)

/-- Model of Rust `hex::encode`: two lowercase hex characters per byte. -/
def hexEncodeBytes : List Nat → List Char
  | [] => []
  | b :: bs => hexDigitChar (b / 16 % 16) :: hexDigitChar (b % 16) :: hexEncodeBytes bs

/-- Fuel-driven worker for `natHex`; the fuel bounds the digit count. -/
def toHexAux : Nat → Nat → List Char
  | 0, _ => []
  | Nat.succ f, n => if n = 0 then [] else toHexAux f (n / 16) ++ [hexDigitChar (n % 16)]

/-- Model of Rust `{:x}` formatting: minimal lowercase hex digits,
`"0"` for zero. -/
def natHex (n : Nat) : List Char :=
  if n = 0 then ['0'] else toHexAux n n

/-- Model of Rust `{:0>64}` formatting: pad on the left with `'0'` up to
64 characters (never truncates). -/
def padZeros64 (s : List Char) : List Char :=
  List.replicate (64 - s.length) '0' ++ s

/-- Big-endian 8-byte encoding of a 64-bit value (model of Rust
`u64::to_be_bytes`). -/
def toBeBytes8 (n : Nat) : List Nat :=
  [(n >>> 56) % 256, (n >>> 48) % 256, (n >>> 40) % 256, (n >>> 32) % 256,
    (n >>> 24) % 256, (n >>> 16) % 256, (n >>> 8) % 256, n % 256]

/-- Split a character list at every occurrence of `sep`, keeping empty
segments (model of Rust `str::split` with a `char` separator; the empty
input yields one empty segment, as in Rust). -/
def splitChar (sep : Char) : List Char → List (List Char)
  | [] => [[]]
  | c :: cs =>
    let r := splitChar sep cs
    if c = sep then [] :: r
    else
      match r with
      | [] => [[c]]
      | g :: gs => (c :: g) :: gs

/-- The `'.'`-separated segments of a destination string
(ethereum.rs line 25: `destination.split('.').collect()`). -/
def splitDots (s : String) : List String :=
  (splitChar '.' s.data).map (fun g => String.mk g)

/-- Parsed destination address for Ethereum payouts
(struct `EthereumDestination`, ethereum.rs lines 14-19). -/
structure EthereumDestination where
  chain_id : Nat
  asset_code : String
  recipient : String
deriving DecidableEq, Repr

/-- Body of `EthereumDestination::parse` after the split on `'.'`
(ethereum.rs lines 27-58): at least 7 segments, an `eth` marker with at
least 3 segments after it, a `u64` chain id, a verbatim asset code, and
a recipient that starts with `0x` and has byte length 42. -/
def parseParts (parts : List String) : Option EthereumDestination :=
  if parts.length < 7 then none
  else
    match position (fun p => p == "eth") parts with
    | none => none
    | some eth_idx =>
      if parts.length ≤ eth_idx + 3 then none
      else
        match parseU64 (parts.getD (eth_idx + 1) "") with
        | none => none
        | some chain_id =>
          if hasPrefixL (parts.getD (eth_idx + 3) "").data "0x".data = false ∨
              rustLen (parts.getD (eth_idx + 3) "") ≠ 42
          then none
          else some ⟨chain_id, parts.getD (eth_idx + 2) "", parts.getD (eth_idx + 3) ""⟩

/-- Function `EthereumDestination::parse` (ethereum.rs lines 24-58): split the
destination on `'.'` and run the segment checks. -/
def EthereumDestination.parse (destination : String) : Option EthereumDestination :=
  parseParts (splitDots destination)

/-! ### SHA-256 (model of `ring::digest::digest(&SHA256, data)`) -/

/-- Truncate to a 32-bit word. -/
def w32 (n : Nat) : Nat := n % 4294967296

/-- Rotate a 32-bit word right by the given amount. -/
def rotr (k x : Nat) : Nat :=
  w32 ((x >>> k) ||| (x <<< (32 - k)))

/-- SHA-256 `Ch` function. -/
def shaCh (x y z : Nat) : Nat :=
  (x &&& y) ^^^ ((x ^^^ 4294967295) &&& z)

/-- SHA-256 `Maj` function. -/
def shaMaj (x y z : Nat) : Nat :=
  (x &&& y) ^^^ (x &&& z) ^^^ (y &&& z)

/-- SHA-256 big sigma-0. -/
def bigSigma0 (x : Nat) : Nat := rotr 2 x ^^^ rotr 13 x ^^^ rotr 22 x

/-- SHA-256 big sigma-1. -/
def bigSigma1 (x : Nat) : Nat := rotr 6 x ^^^ rotr 11 x ^^^ rotr 25 x

/-- SHA-256 small sigma-0. -/
def smallSigma0 (x : Nat) : Nat := rotr 7 x ^^^ rotr 18 x ^^^ (x >>> 3)

/-- SHA-256 small sigma-1. -/
def smallSigma1 (x : Nat) : Nat := rotr 17 x ^^^ rotr 19 x ^^^ (x >>> 10)

/-- The 64 SHA-256 round constants, written in decimal. -/
def shaK : List Nat :=
  [1116352408, 1899447441, 3049323471, 3921009573, 961987163,
   1508970993, 2453635748, 2870763221, 3624381080, 310598401,
   607225278, 1426881987, 1925078388, 2162078206, 2614888103,
   3248222580, 3835390401, 4022224774, 264347078, 604807628,
   770255983, 1249150122, 1555081692, 1996064986, 2554220882,
   2821834349, 2952996808, 3210313671, 3336571891, 3584528711,
   113926993, 338241895, 666307205, 773529912, 1294757372,
   1396182291, 1695183700, 1986661051, 2177026350, 2456956037,
   2730485921, 2820302411, 3259730800, 3345764771, 3516065817,
   3600352804, 4094571909, 275423344, 430227734, 506948616,
   659060556, 883997877, 958139571, 1322822218, 1537002063,
   1747873779, 1955562222, 2024104815, 2227730452, 2361852424,
   2428436474, 2756734187, 3204031479, 3329325298]

/-- SHA-256 working state: eight 32-bit words. -/
structure Hash8 where
  a : Nat
  b : Nat
  c : Nat
  d : Nat
  e : Nat
  f : Nat
  g : Nat
  h : Nat
deriving DecidableEq, Repr

/-- SHA-256 initial hash value, written in decimal. -/
def shaInit : Hash8 :=
  ⟨1779033703, 3144134277, 1013904242, 2773480762,
   1359893119, 2600822924, 528734635, 1541459225⟩

/-- Group a byte list into big-endian 32-bit words (4 bytes per word). -/
def toWords : List Nat → List Nat
  | b0 :: b1 :: b2 :: b3 :: rest =>
    (((b0 * 256 + b1) * 256 + b2) * 256 + b3) :: toWords rest
  | _ => []

/-- Extend a 16-word message schedule by the given number of words. -/
def extendSchedule (ws : List Nat) : Nat → List Nat
  | 0 => ws
  | Nat.succ k =>
    let i := ws.length
    let w := w32 (smallSigma1 (ws.getD (i - 2) 0) + ws.getD (i - 7) 0 +
      smallSigma0 (ws.getD (i - 15) 0) + ws.getD (i - 16) 0)
    extendSchedule (ws ++ [w]) k

/-- One SHA-256 compression round, consuming a `(K, W)` pair. -/
def compressStep (st : Hash8) (kw : Nat × Nat) : Hash8 :=
  let t1 := w32 (st.h + bigSigma1 st.e + shaCh st.e st.f st.g + kw.1 + kw.2)
  let t2 := w32 (bigSigma0 st.a + shaMaj st.a st.b st.c)
  ⟨w32 (t1 + t2), st.a, st.b, st.c, w32 (st.d + t1), st.e, st.f, st.g⟩

/-- Process one 64-byte block. -/
def compressBlock (h0 : Hash8) (block : List Nat) : Hash8 :=
  let ws := extendSchedule (toWords block) 48
  let st := (shaK.zip ws).foldl compressStep h0
  ⟨w32 (h0.a + st.a), w32 (h0.b + st.b), w32 (h0.c + st.c), w32 (h0.d + st.d),
   w32 (h0.e + st.e), w32 (h0.f + st.f), w32 (h0.g + st.g), w32 (h0.h + st.h)⟩

/-- Fuel-driven chunking of a byte list into 64-byte blocks. -/
def chunksAux : Nat → List Nat → List (List Nat)
  | 0, _ => []
  | _, [] => []
  | Nat.succ fuel, l => l.take 64 :: chunksAux fuel (l.drop 64)

/-- Chunk a byte list into 64-byte blocks. -/
def chunks64 (l : List Nat) : List (List Nat) :=
  chunksAux l.length l

/-- Big-endian byte decomposition of a 32-bit word. -/
def wordBytes (w : Nat) : List Nat :=
  [(w >>> 24) % 256, (w >>> 16) % 256, (w >>> 8) % 256, w % 256]

/-- SHA-256 of a byte list: pad to a multiple of 64 bytes (`0x80`, zero
fill, 64-bit big-endian bit length), compress each block, and serialize
the final state big-endian. -/
def sha256 (msg : List Nat) : List Nat :=
  let L := msg.length
  let padded := msg ++ 128 :: List.replicate ((64 - (L + 9) % 64) % 64) 0 ++
    toBeBytes8 (L * 8)
  let final := (chunks64 padded).foldl compressBlock shaInit
  wordBytes final.a ++ wordBytes final.b ++ wordBytes final.c ++
    wordBytes final.d ++ wordBytes final.e ++ wordBytes final.f ++
    wordBytes final.g ++ wordBytes final.h

/-- Function `EthereumPayoutService::generate_payment_id` (ethereum.rs lines
274-282): SHA-256 of the destination bytes followed by the big-endian
8-byte sequence number; the final `copy_from_slice` into a `[u8; 32]`
would panic if the digest were not 32 bytes, modelled by the length
guard returning `none`. -/
def generate_payment_id (destination : String) (sequence : Nat) : Option (List Nat) :=
  let data := listUtf8 destination.data ++ toBeBytes8 sequence
  let hash := sha256 data
  if hash.length = 32 then some hash else none

/-! ### Payout service, JSON-RPC boundary, and orchestration -/

instance exceptDecEq {ε α : Type} [DecidableEq ε] [DecidableEq α] :
    DecidableEq (Except ε α) := fun x y =>
  match x, y with
  | Except.ok a, Except.ok b =>
    if h : a = b then isTrue (by rw [h])
    else isFalse (by intro hc; injection hc; contradiction)
  | Except.ok _, Except.error _ => isFalse (by intro hc; injection hc)
  | Except.error _, Except.ok _ => isFalse (by intro hc; injection hc)
  | Except.error a, Except.error b =>
    if h : a = b then isTrue (by rw [h])
    else isFalse (by intro hc; injection hc; contradiction)

/-- Struct `EthereumPayoutConfig` (ethereum.rs lines 61-67). -/
structure EthereumPayoutConfig where
  rpc_url : String
  treasury_address : String
  operator_private_key : String
  expected_chain_id : Nat
deriving DecidableEq, Repr

/-- Struct `EthereumPayoutService` (ethereum.rs lines 87-91): the config plus
the operator address derived once at construction; the HTTP client
handle carries no observable state. -/
structure EthereumPayoutService where
  config : EthereumPayoutConfig
  operator_address : String
deriving DecidableEq, Repr

/-- The `error` member of a JSON-RPC response, viewed through the two
accesses the code performs: `error["message"].as_str()`. -/
structure RpcErrorObj where
  messageStr : Option String
deriving DecidableEq, Repr

/-- A JSON-RPC response body, viewed through the accesses the code
performs: `response["result"].as_str()` (`some` exactly when a `result`
member is present and is a string) and `response.get("error")`. -/
structure RpcResponse where
  resultStr : Option String
  error : Option RpcErrorObj
deriving DecidableEq, Repr

/-- The `eth_sendTransaction` params object built at ethereum.rs lines
240-247, with the numeric fields already hex-formatted. -/
structure TxRequest where
  from_addr : String
  to_addr : String
  gas : String
  gasPrice : String
  nonce : String
  data : String
deriving DecidableEq, Repr

/-- The JSON-RPC boundary: what the node answers to each of the three
calls.  A transport-level failure (`?` on send/json) is `Except.error`;
the submission response may depend on the submitted transaction. -/
structure RpcEnv where
  nonceResponse : Except String RpcResponse
  gasPriceResponse : Except String RpcResponse
  sendResponse : TxRequest → Except String RpcResponse

/-- Function `EthereumPayoutService::get_nonce` (ethereum.rs lines 180-200):
`eth_getTransactionCount`, then `result` as a hex string parsed as
`u64` after stripping leading `0x` runs. -/
def get_nonce (env : RpcEnv) : Except String Nat :=
  match env.nonceResponse with
  | Except.error e => Except.error e
  | Except.ok response =>
    match response.resultStr with
    | none => Except.error "No result in nonce response"
    | some nonce_hex =>
      match parseHexU64 (trimStartMatches nonce_hex.data "0x".data) with
      | none => Except.error "invalid digit found in string"
      | some nonce => Except.ok nonce

/-- Function `EthereumPayoutService::get_gas_price` (ethereum.rs lines 202-222):
`eth_gasPrice`, with the same hex extraction as the nonce. -/
def get_gas_price (env : RpcEnv) : Except String Nat :=
  match env.gasPriceResponse with
  | Except.error e => Except.error e
  | Except.ok response =>
    match response.resultStr with
    | none => Except.error "No result in gas price response"
    | some gas_hex =>
      match parseHexU64 (trimStartMatches gas_hex.data "0x".data) with
      | none => Except.error "invalid digit found in string"
      | some gas => Except.ok gas

/-- The params object of the `eth_sendTransaction` request
(ethereum.rs lines 240-247): `gas`, `gasPrice` and `nonce` are
`format!("0x\x7b:x\x7d", _)`-encoded. -/
def mk_tx_request (from_addr to_addr : String) (gas_limit gas_price nonce : Nat)
    (data : String) : TxRequest :=
  ⟨from_addr, to_addr, "0x" ++ String.mk (natHex gas_limit),
    "0x" ++ String.mk (natHex gas_price), "0x" ++ String.mk (natHex nonce), data⟩

/-- Interpretation of the `eth_sendTransaction` response (ethereum.rs
lines 255-270): an `error` member whose message contains
"already processed" or "revert" is the idempotent success sentinel; any
other error message becomes an `RpcError`; otherwise `result` is the
transaction hash. -/
def interpret_send_response (resp : Except String RpcResponse) : Except String String :=
  match resp with
  | Except.error e => Except.error e
  | Except.ok response =>
    match response.error with
    | some err =>
      let error_msg := err.messageStr.getD "Unknown error"
      if containsSubL error_msg.data ("already processed").data ||
          containsSubL error_msg.data ("revert").data
      then Except.ok "already_processed"
      else Except.error ("RPC error: " ++ error_msg)
    | none =>
      match response.resultStr with
      | some tx_hash => Except.ok tx_hash
      | none => Except.error "No transaction hash in response"

/-- Function `EthereumPayoutService::send_raw_transaction` (ethereum.rs lines
224-271): build the params object, post it, interpret the response. -/
def send_raw_transaction (svc : EthereumPayoutService) (env : RpcEnv)
    (to_addr data : String) (nonce gas_limit gas_price : Nat) : Except String String :=
  interpret_send_response
    (env.sendResponse (mk_tx_request svc.operator_address to_addr gas_limit gas_price nonce data))

/-- The call-data hex string for `payoutToUser(bytes32,address,uint256)`
(ethereum.rs lines 143-155): fixed selector, payment id hex, recipient
with leading `0x` runs stripped and left-zero-padded to 64, amount in
hex left-zero-padded to 64. -/
def encode_call_data (payment_id : List Nat) (recipient : String) (amount : Nat) : String :=
  String.mk ("b77276d8".data ++ hexEncodeBytes payment_id ++
    padZeros64 (trimStartMatches recipient.data "0x".data) ++
    padZeros64 (natHex amount))

/-- Function `EthereumPayoutService::execute_payout` (ethereum.rs lines 115-178):
parse the destination (hard failure when it does not decode), generate
the payment id, encode the call data, fetch nonce and gas price, and
submit with a fixed gas limit of 100000.  The chain-id comparison at
lines 124-129 only emits a warning and does not alter control flow.
The outer `none` models a panic inside `generate_payment_id`. -/
def execute_payout (svc : EthereumPayoutService) (env : RpcEnv)
    (destination : String) (amount sequence : Nat) : Option (Except String String) :=
  match EthereumDestination.parse destination with
  | none => some (Except.error "Failed to parse Ethereum destination")
  | some eth_dest =>
    match generate_payment_id destination sequence with
    | none => none
    | some payment_id =>
      let data := encode_call_data payment_id eth_dest.recipient amount
      match get_nonce env with
      | Except.error e => some (Except.error e)
      | Except.ok nonce =>
        match get_gas_price env with
        | Except.error e => some (Except.error e)
        | Except.ok gas_price =>
          some (send_raw_transaction svc env svc.config.treasury_address
            ("0x" ++ data) nonce 100000 gas_price)

/-- The fixed key-to-address table of `derive_address_from_key`
(ethereum.rs lines 289-302): Anvil's first three default accounts. -/
def anvil_accounts : List (String × String) :=
  [("ac0974bec39a17e36ba4a6b4d238ff944bacb478cbed5efcae784d7bf4f2ff80",
    "0xf39Fd6e51aad88F6F4ce6aB8827279cffFb92266"),
   ("59c6995e998f97a5a0044966f0945389dc9e86dae88c7a8412f4603b6b78690d",
    "0x70997970C51812dc3A010C7d01b50e0d17dc79C8"),
   ("5de4111afa1a4b94908f83103eb1f1706367c2e68ca870fc3fb9a804cdab365a",
    "0x3C44CdDdB6a900fa2b585dd299e03d12FA4293BC")]

/-- The key normalization at ethereum.rs line 304: strip leading `0x`
runs, then lowercase. -/
def normalize_key (private_key : String) : String :=
  String.mk ((trimStartMatches private_key.data "0x".data).map Char.toLower)

/-- Function `derive_address_from_key` (ethereum.rs lines 287-314): look the
normalized key up in the fixed table; unknown keys fall back to the
first default account.  The function never constructs an error. -/
def derive_address_from_key (private_key : String) : Except String String :=
  let key := normalize_key private_key
  match anvil_accounts.find? (fun entry => key == entry.1) with
  | some entry => Except.ok entry.2
  | none => Except.ok "0xf39Fd6e51aad88F6F4ce6aB8827279cffFb92266"

/-- Function `EthereumPayoutService::new` (ethereum.rs lines 95-112). -/
def EthereumPayoutService.new (config : EthereumPayoutConfig) :
    Except String EthereumPayoutService :=
  match derive_address_from_key config.operator_private_key with
  | Except.ok operator_address => Except.ok ⟨config, operator_address⟩
  | Except.error e => Except.error e

/-- How far `maybe_execute_payout` got: returned at the `.eth.`
screening, returned because no service is available, or invoked
`execute_payout` with the recorded outcome. -/
inductive PayoutAttempt where
  | skippedNotEthereum : PayoutAttempt
  | skippedNoService : PayoutAttempt
  | invoked : Option (Except String String) → PayoutAttempt
deriving DecidableEq, Repr

/-- Control flow of `maybe_execute_payout` (ethereum.rs lines 339-362):
destinations without the literal `.eth.` return immediately; an
uninitialized registry (`none`) or a disabled service (`some none`)
returns immediately; otherwise `execute_payout` runs.  The registry
models the `PAYOUT_SERVICE` `OnceLock<Option<...>>`. -/
def maybe_execute_payout_trace (registry : Option (Option EthereumPayoutService))
    (env : RpcEnv) (destination : String) (amount sequence : Nat) : PayoutAttempt :=
  if containsSubL destination.data (".eth.").data = false then
    PayoutAttempt.skippedNotEthereum
  else
    match registry with
    | some (some svc) => PayoutAttempt.invoked (execute_payout svc env destination amount sequence)
    | _ => PayoutAttempt.skippedNoService

/-- Function `maybe_execute_payout` (ethereum.rs lines 339-362) as observed by
its caller: it returns unit; both arms of the final `match` only log,
so an `Err` from `execute_payout` is absorbed.  `none` would mean a
panic escaping to the caller. -/
def maybe_execute_payout (registry : Option (Option EthereumPayoutService))
    (env : RpcEnv) (destination : String) (amount sequence : Nat) : Option Unit :=
  match maybe_execute_payout_trace registry env destination amount sequence with
  | PayoutAttempt.invoked none => none
  | _ => some ()

/-! ### Helper lemmas -/

/-- An ASCII character encodes to a single UTF-8 byte. -/
theorem charUtf8_ascii (c : Char) (h : c.toNat < 128) : charUtf8 c = [c.toNat] := by
  unfold charUtf8
  simp [h]

/-- UTF-8 encoding of an all-ASCII character list has one byte per
character. -/
theorem listUtf8_ascii_length (cs : List Char) (h : ∀ c ∈ cs, c.toNat < 128) :
    (listUtf8 cs).length = cs.length := by
  induction cs with
  | nil => rfl
  | cons c t ih =>
    simp [listUtf8, charUtf8_ascii c (h c (by simp)),
      ih (fun x hx => h x (by simp [hx]))]

/-- Every character contributes at least one UTF-8 byte. -/
theorem length_le_listUtf8 (cs : List Char) : cs.length ≤ (listUtf8 cs).length := by
  induction cs with
  | nil => simp [listUtf8]
  | cons c t ih =>
    have hc : 1 ≤ (charUtf8 c).length := by
      unfold charUtf8
      dsimp only
      split_ifs <;> simp
    simp only [listUtf8, List.length_append, List.length_cons]
    omega

/-- Hexadecimal digit characters are ASCII. -/
theorem isHexDigitC_lt128 (c : Char) (h : isHexDigitC c = true) : c.toNat < 128 := by
  unfold isHexDigitC at h
  simp only [Bool.or_eq_true, Bool.and_eq_true, decide_eq_true_eq] at h
  omega

/-- Encoding via `hex::encode` produces two characters per byte. -/
theorem hexEncodeBytes_length (bs : List Nat) :
    (hexEncodeBytes bs).length = 2 * bs.length := by
  induction bs with
  | nil => rfl
  | cons b t ih => simp [hexEncodeBytes, ih]; omega

/-- Padding to 64 gives exactly 64 characters when the input is at most
64 characters. -/
theorem padZeros64_length (s : List Char) (h : s.length ≤ 64) :
    (padZeros64 s).length = 64 := by
  simp [padZeros64]
  omega

/-- Stripping leading pattern runs never lengthens a string. -/
theorem trimStartAux_length_le (f : Nat) (s pat : List Char) :
    (trimStartAux f s pat).length ≤ s.length := by
  induction f generalizing s with
  | zero => simp [trimStartAux]
  | succ f ih =>
    unfold trimStartAux
    split
    · exact Nat.le_refl _
    · split
      · exact Nat.le_trans (ih _) (by simp)
      · exact Nat.le_refl _

/-- Stripping leading pattern runs never lengthens a string. -/
theorem trimStartMatches_length_le (s pat : List Char) :
    (trimStartMatches s pat).length ≤ s.length :=
  trimStartAux_length_le s.length s pat

/-- A value below `16 ^ k` has at most `k` hex digits. -/
theorem toHexAux_length_le (f : Nat) : ∀ n k : Nat, n ≤ f → n < 16 ^ k →
    (toHexAux f n).length ≤ k := by
  induction f with
  | zero => intro n k _ _; simp [toHexAux]
  | succ f ih =>
    intro n k hf hk
    unfold toHexAux
    split
    · simp
    · rename_i hn
      have hk1 : 1 ≤ k := by
        by_contra hc
        have : k = 0 := by omega
        rw [this] at hk
        simp at hk
        exact hn hk
      have hdivf : n / 16 ≤ f := by
        have : n / 16 < n := Nat.div_lt_self (by omega) (by omega)
        omega
      have hdivk : n / 16 < 16 ^ (k - 1) := by
        rw [Nat.div_lt_iff_lt_mul (by omega)]
        have : 16 ^ (k - 1) * 16 = 16 ^ k := by
          rw [← Nat.pow_succ]
          congr 1
          omega
        omega
      have := ih (n / 16) (k - 1) hdivf hdivk
      simp only [List.length_append, List.length_cons, List.length_nil]
      omega

/-- A 64-bit value prints as at most 16 hex digits. -/
theorem natHex_length_le16 (n : Nat) (h : n < 18446744073709551616) :
    (natHex n).length ≤ 16 := by
  unfold natHex
  split
  · simp
  · exact toHexAux_length_le n n 16 (Nat.le_refl n)
      (by have : (16 : Nat) ^ 16 = 18446744073709551616 := by norm_num
          omega)

/-- Search via `Iterator::position` finds the marker right after a marker-free
leading run. -/
theorem position_append_eth (pre rest : List String) (h : "eth" ∉ pre) :
    position (fun p => p == "eth") (pre ++ "eth" :: rest) = some pre.length := by
  induction pre with
  | nil => simp [position]
  | cons a t ih =>
    have ha : (a == "eth") = false := by
      simp only [beq_eq_false_iff_ne]
      intro e
      exact h (by simp [e])
    have ht : "eth" ∉ t := fun hm => h (List.mem_cons_of_mem _ hm)
    simp [position, ha, ih ht]

/-- Indexing past a leading run lands in the tail. -/
theorem getD_append_add {α : Type} (pre l : List α) (k : Nat) (d : α) :
    (pre ++ l).getD (pre.length + k) d = l.getD k d := by
  induction pre with
  | nil => simp
  | cons a t ih =>
    have harith : t.length + 1 + k = (t.length + k) + 1 := by omega
    simp only [List.cons_append, List.length_cons, harith, List.getD_cons_succ]
    exact ih

/-- Decimal digits are not the sign character. -/
theorem isDigit_ne_plus (c : Char) (h : c.isDigit = true) : c ≠ '+' := by
  intro e
  rw [e] at h
  exact absurd h (by decide)

/-- Parsing via `str::parse::<u64>` succeeds on a nonempty all-digit string whose
value fits in 64 bits, returning that value. -/
theorem parseU64_digits (s : String) (h1 : s.data ≠ [])
    (h2 : s.data.all Char.isDigit = true)
    (h3 : digitsVal s.data < 18446744073709551616) :
    parseU64 s = some (digitsVal s.data) := by
  have hs : stripPlus s.data = s.data := by
    cases hd : s.data with
    | nil => rfl
    | cons c cs =>
      have hc : Char.isDigit c = true := by
        rw [hd] at h2
        simp [List.all_cons] at h2
        exact h2.1
      simp [stripPlus, isDigit_ne_plus c hc]
  unfold parseU64
  simp only [hs]
  simp [h1, h2, h3]

/-- Serialization `wordBytes` always yields four bytes. -/
theorem wordBytes_length (w : Nat) : (wordBytes w).length = 4 := rfl

/-- The SHA-256 digest is always 32 bytes. -/
theorem sha256_length (msg : List Nat) : (sha256 msg).length = 32 := by
  simp [sha256, List.length_append, wordBytes_length]

/-- Generation `generate_payment_id` never hits its panic guard: it always returns
the SHA-256 digest of the destination bytes followed by the big-endian
sequence bytes. -/
theorem generate_payment_id_eq (destination : String) (sequence : Nat) :
    generate_payment_id destination sequence =
      some (sha256 (listUtf8 destination.data ++ toBeBytes8 sequence)) := by
  simp [generate_payment_id, sha256_length]

/-- SHA-256 test vector: the digest of the empty message. -/
theorem sha256_empty_vector :
    sha256 [] = [227, 176, 196, 66, 152, 252, 28, 20, 154, 251,
      244, 200, 153, 111, 185, 36, 39, 174, 65, 228,
      100, 155, 147, 76, 164, 149, 153, 27, 120, 82,
      184, 85] := by
  decide

/-- SHA-256 test vector: the digest of `"abc"`. -/
theorem sha256_abc_vector :
    sha256 [97, 98, 99] = [186, 120, 22, 191, 143, 1, 207, 234, 65, 65,
      64, 222, 93, 174, 34, 35, 176, 3, 97, 163,
      150, 23, 122, 156, 180, 16, 255, 97, 242, 0,
      21, 173] := by
  decide

/-- Orchestration `execute_payout` always returns normally (no panic path). -/
theorem execute_payout_isSome (svc : EthereumPayoutService) (env : RpcEnv)
    (d : String) (a s : Nat) : ∃ r, execute_payout svc env d a s = some r := by
  unfold execute_payout
  cases hp : EthereumDestination.parse d with
  | none => exact ⟨_, rfl⟩
  | some dest =>
    rw [generate_payment_id_eq]
    cases hn : get_nonce env with
    | error e => exact ⟨_, rfl⟩
    | ok nonce =>
      cases hg : get_gas_price env with
      | error e => exact ⟨_, rfl⟩
      | ok gp => exact ⟨_, rfl⟩

/-! ### Sample inputs shared by witnesses -/

/-- A concrete RPC environment whose three calls all succeed. -/
def sampleEnv : RpcEnv :=
  ⟨Except.ok ⟨some "0x1", none⟩, Except.ok ⟨some "0x3b9aca00", none⟩,
    fun _ => Except.ok ⟨some "0x9b1d", none⟩⟩

/-- A concrete service configured for chain id 1. -/
def sampleService : EthereumPayoutService :=
  ⟨⟨"http://localhost:8545", "0x5FbDB2315678afecb367f032d93F642f64180aa3",
    "ac0974bec39a17e36ba4a6b4d238ff944bacb478cbed5efcae784d7bf4f2ff80", 1⟩,
    "0xf39Fd6e51aad88F6F4ce6aB8827279cffFb92266"⟩

/-! ### Claims -/

/-- C1 (counterexample): the parser accepts a recipient whose 40
characters after `0x` are not hexadecimal digits, so a returned
instruction need not carry a 40-hex-digit recipient. -/
theorem c1_counterexample :
    EthereumDestination.parse "a.b.eth.1.X.0xzzzzzzzzzzzzzzzzzzzzzzzzzzzzzzzzzzzzzzzz.t" =
      some ⟨1, "X", "0xzzzzzzzzzzzzzzzzzzzzzzzzzzzzzzzzzzzzzzzz"⟩
    ∧ (("0xzzzzzzzzzzzzzzzzzzzzzzzzzzzzzzzzzzzzzzzz".data.drop 2).all isHexDigitC) = false := by
  constructor <;> decide

/-- C1 (amended): whenever `EthereumDestination::parse` returns an
instruction, its recipient starts with `0x` and is exactly 42 bytes
long; the remaining 40 characters are not validated as hex digits. -/
theorem c1_recipient_shape (d : String) (dest : EthereumDestination)
    (h : EthereumDestination.parse d = some dest) :
    hasPrefixL dest.recipient.data "0x".data = true ∧ rustLen dest.recipient = 42 := by
  unfold EthereumDestination.parse parseParts at h
  split at h
  · exact absurd h (by simp)
  · split at h
    · exact absurd h (by simp)
    · split at h
      · exact absurd h (by simp)
      · split at h
        · exact absurd h (by simp)
        · split at h
          · exact absurd h (by simp)
          · rename_i hcond
            push_neg at hcond
            obtain ⟨hpref, hlen⟩ := hcond
            injection h with h
            subst h
            exact ⟨by simpa using hpref, hlen⟩

/-- C1 witness: a concrete accepted destination whose recipient
satisfies the amended shape. -/
theorem c1_witness :
    hasPrefixL ("0x70997970C51812dc3A010C7d01b50e0d17dc79C8").data "0x".data = true
    ∧ rustLen "0x70997970C51812dc3A010C7d01b50e0d17dc79C8" = 42 :=
  c1_recipient_shape "q.r.eth.7.USDC.0x70997970C51812dc3A010C7d01b50e0d17dc79C8.tok"
    ⟨7, "USDC", "0x70997970C51812dc3A010C7d01b50e0d17dc79C8"⟩ (by decide)

/-- C2: when the submission response carries an `error` object, the call
returns the `already_processed` sentinel exactly when the message text
contains "already processed" or "revert", and an `RpcError` (no
transaction hash) otherwise. -/
theorem c2_error_interpretation (resultStr : Option String) (messageStr : Option String) :
    ((containsSubL (messageStr.getD "Unknown error").data ("already processed").data ||
        containsSubL (messageStr.getD "Unknown error").data ("revert").data) = true →
      interpret_send_response (Except.ok ⟨resultStr, some ⟨messageStr⟩⟩) =
        Except.ok "already_processed")
    ∧ ((containsSubL (messageStr.getD "Unknown error").data ("already processed").data ||
        containsSubL (messageStr.getD "Unknown error").data ("revert").data) = false →
      interpret_send_response (Except.ok ⟨resultStr, some ⟨messageStr⟩⟩) =
        Except.error ("RPC error: " ++ messageStr.getD "Unknown error")) := by
  constructor <;> intro h <;> simp [interpret_send_response, h]

/-- C2 witness: the spec's example revert message yields the sentinel,
and an unrelated message propagates as an `RpcError`. -/
theorem c2_witness :
    interpret_send_response
      (Except.ok ⟨none, some ⟨some "execution reverted: already processed"⟩⟩) =
      Except.ok "already_processed"
    ∧ interpret_send_response (Except.ok ⟨none, some ⟨some "nonce too low"⟩⟩) =
      Except.error ("RPC error: " ++ (some "nonce too low").getD "Unknown error") :=
  ⟨(c2_error_interpretation none (some "execution reverted: already processed")).1 (by decide),
    (c2_error_interpretation none (some "nonce too low")).2 (by decide)⟩

/-- C8: a destination with fewer than 7 dot-separated segments never
decodes (and the parser is total: it returns `none`, not an error). -/
theorem c8_short_destination (d : String) (h : (splitDots d).length < 7) :
    EthereumDestination.parse d = none := by
  unfold EthereumDestination.parse parseParts
  rw [if_pos h]

/-- C8 witness: the spec's short example destination decodes to
nothing. -/
theorem c8_witness : EthereumDestination.parse "test.sender.user" = none :=
  c8_short_destination "test.sender.user" (by decide)

/-- C9: the known test credential maps to the first Anvil address, and
any credential whose normalized form misses the three-entry table falls
back to that same default address, never an error. -/
theorem c9_key_table (private_key : String)
    (h : anvil_accounts.find? (fun entry => normalize_key private_key == entry.1) = none) :
    derive_address_from_key "ac0974bec39a17e36ba4a6b4d238ff944bacb478cbed5efcae784d7bf4f2ff80" =
      Except.ok "0xf39Fd6e51aad88F6F4ce6aB8827279cffFb92266"
    ∧ derive_address_from_key private_key =
      Except.ok "0xf39Fd6e51aad88F6F4ce6aB8827279cffFb92266" := by
  constructor
  · decide
  · simp [derive_address_from_key, h]

/-- C9 witness: a concrete unknown credential falls back to the default
address. -/
theorem c9_witness :
    derive_address_from_key "ac0974bec39a17e36ba4a6b4d238ff944bacb478cbed5efcae784d7bf4f2ff80" =
      Except.ok "0xf39Fd6e51aad88F6F4ce6aB8827279cffFb92266"
    ∧ derive_address_from_key "deadbeef" =
      Except.ok "0xf39Fd6e51aad88F6F4ce6aB8827279cffFb92266" :=
  c9_key_table "deadbeef" (by decide)

/-- C10: the screening is the literal substring `.eth.` — destinations
without it return before touching the registry; in particular a
destination whose first segment is the `eth` marker parses successfully
yet is skipped. -/
theorem c10_substring_screening :
    (∀ (registry : Option (Option EthereumPayoutService)) (env : RpcEnv)
        (d : String) (amount sequence : Nat),
      containsSubL d.data (".eth.").data = false →
      maybe_execute_payout_trace registry env d amount sequence =
        PayoutAttempt.skippedNotEthereum)
    ∧ (EthereumDestination.parse
        "eth.31337.EURC.0x70997970C51812dc3A010C7d01b50e0d17dc79C8.a.b.c").isSome = true
    ∧ ∀ (registry : Option (Option EthereumPayoutService)) (env : RpcEnv)
        (amount sequence : Nat),
      maybe_execute_payout_trace registry env
        "eth.31337.EURC.0x70997970C51812dc3A010C7d01b50e0d17dc79C8.a.b.c" amount sequence =
        PayoutAttempt.skippedNotEthereum := by
  refine ⟨?_, by decide, ?_⟩
  · intro registry env d amount sequence h
    simp [maybe_execute_payout_trace, h]
  · intro registry env amount sequence
    have h : containsSubL
        ("eth.31337.EURC.0x70997970C51812dc3A010C7d01b50e0d17dc79C8.a.b.c").data
        (".eth.").data = false := by decide
    simp [maybe_execute_payout_trace, h]

/-- C10 witness: a destination ending in `.eth` (no trailing dot) is
screened out without consulting the registry. -/
theorem c10_witness :
    maybe_execute_payout_trace none sampleEnv "g.eth" 1 2 =
      PayoutAttempt.skippedNotEthereum :=
  c10_substring_screening.1 none sampleEnv "g.eth" 1 2 (by decide)

/-- C3 (counterexample): a destination of the claimed well-formed shape
(`<a>.<b>.eth.<n>.<code>.0x<40hex>.<trailer>` with `<a> = "eth"`) on
which the parser locks onto the earlier `eth` segment and decodes
nothing instead of the claimed instruction. -/
theorem c3_counterexample :
    splitDots "eth.5.eth.31337.EURC.0x70997970C51812dc3A010C7d01b50e0d17dc79C8.abc123" =
      ["eth", "5"] ++ "eth" :: "31337" :: "EURC" ::
        "0x70997970C51812dc3A010C7d01b50e0d17dc79C8" :: ["abc123"]
    ∧ EthereumDestination.parse
        "eth.5.eth.31337.EURC.0x70997970C51812dc3A010C7d01b50e0d17dc79C8.abc123" = none := by
  constructor <;> decide

/-- C3 (amended): for destinations splitting as
`pre ++ ["eth", n, code, rcpt] ++ trail` with at least 7 segments, no
`eth` segment before the marker, `n` a nonempty digit string whose value
fits in 64 bits, and `rcpt` equal to `0x` plus 40 hex digits, parsing
returns exactly the instruction `{n, code, rcpt}`; the spec's example
destination decodes as stated. -/
theorem c3_wellformed_decoding :
    (∀ (d : String) (pre : List String) (n code rcpt : String) (trail : List String)
        (hx : List Char),
      splitDots d = pre ++ "eth" :: n :: code :: rcpt :: trail →
      7 ≤ pre.length + 4 + trail.length →
      "eth" ∉ pre →
      n.data ≠ [] →
      n.data.all Char.isDigit = true →
      digitsVal n.data < 18446744073709551616 →
      rcpt.data = '0' :: 'x' :: hx →
      hx.length = 40 →
      hx.all isHexDigitC = true →
      EthereumDestination.parse d = some ⟨digitsVal n.data, code, rcpt⟩)
    ∧ EthereumDestination.parse
        "test.receiver.eth.31337.EURC.0x70997970C51812dc3A010C7d01b50e0d17dc79C8.abc123" =
        some ⟨31337, "EURC", "0x70997970C51812dc3A010C7d01b50e0d17dc79C8"⟩ := by
  constructor
  · intro d pre n code rcpt trail hx hsplit hlen hpre hn1 hn2 hn3 hrd hx40 hxhex
    have h7 : ¬ ((pre ++ "eth" :: n :: code :: rcpt :: trail).length < 7) := by
      simp only [List.length_append, List.length_cons]
      omega
    have hpos := position_append_eth pre (n :: code :: rcpt :: trail) hpre
    have hb : ¬ ((pre ++ "eth" :: n :: code :: rcpt :: trail).length ≤ pre.length + 3) := by
      simp only [List.length_append, List.length_cons]
      omega
    have hget1 : (pre ++ "eth" :: n :: code :: rcpt :: trail).getD (pre.length + 1) "" = n := by
      rw [getD_append_add]
      rfl
    have hget2 : (pre ++ "eth" :: n :: code :: rcpt :: trail).getD (pre.length + 2) "" = code := by
      rw [getD_append_add]
      rfl
    have hget3 : (pre ++ "eth" :: n :: code :: rcpt :: trail).getD (pre.length + 3) "" = rcpt := by
      rw [getD_append_add]
      rfl
    have hu := parseU64_digits n hn1 hn2 hn3
    have hxall : ∀ c ∈ hx, c.toNat < 128 := by
      intro c hc
      refine isHexDigitC_lt128 c ?_
      rw [List.all_eq_true] at hxhex
      exact hxhex c hc
    have hpref : hasPrefixL rcpt.data "0x".data = true := by
      rw [hrd]
      simp [hasPrefixL]
    have hrlen : rustLen rcpt = 42 := by
      unfold rustLen
      rw [hrd, listUtf8_ascii_length]
      · simp [hx40]
      · intro c hc
        rcases List.mem_cons.mp hc with h0 | hc1
        · rw [h0]; decide
        · rcases List.mem_cons.mp hc1 with h1 | hc2
          · rw [h1]; decide
          · exact hxall c hc2
    unfold EthereumDestination.parse
    rw [hsplit]
    unfold parseParts
    rw [if_neg h7, hpos]
    simp only [hget1, hget2, hget3, hu]
    rw [if_neg hb]
    rw [if_neg]
    simp [hpref, hrlen]
  · decide

/-- C3 witness: the general theorem instantiated at the spec's
example destination. -/
theorem c3_witness :
    EthereumDestination.parse
      "test.receiver.eth.31337.EURC.0x70997970C51812dc3A010C7d01b50e0d17dc79C8.abc123" =
      some ⟨digitsVal ("31337").data, "EURC",
        "0x70997970C51812dc3A010C7d01b50e0d17dc79C8"⟩ :=
  c3_wellformed_decoding.1
    "test.receiver.eth.31337.EURC.0x70997970C51812dc3A010C7d01b50e0d17dc79C8.abc123"
    ["test", "receiver"] "31337" "EURC" "0x70997970C51812dc3A010C7d01b50e0d17dc79C8"
    ["abc123"] ("70997970C51812dc3A010C7d01b50e0d17dc79C8").data
    (by decide) (by decide) (by decide) (by decide) (by decide) (by decide)
    (by decide) (by decide) (by decide)

/-- C4: a chain-id mismatch does not abort `execute_payout` — for any
RPC environment it behaves exactly as it would with a matching
configured chain id (same payment id, call data, and submission). -/
theorem c4_chain_mismatch_no_abort (svc : EthereumPayoutService) (env : RpcEnv)
    (destination : String) (amount sequence : Nat) (eth_dest : EthereumDestination)
    (hparse : EthereumDestination.parse destination = some eth_dest)
    (hmismatch : eth_dest.chain_id ≠ svc.config.expected_chain_id) :
    execute_payout svc env destination amount sequence =
      execute_payout ⟨⟨svc.config.rpc_url, svc.config.treasury_address,
        svc.config.operator_private_key, eth_dest.chain_id⟩, svc.operator_address⟩
        env destination amount sequence :=
  rfl

/-- C4 witness: a destination for chain 31337 against a service
configured for chain 1. -/
theorem c4_witness :
    execute_payout sampleService sampleEnv
      "test.receiver.eth.31337.EURC.0x70997970C51812dc3A010C7d01b50e0d17dc79C8.abc123" 5 7 =
      execute_payout ⟨⟨"http://localhost:8545",
        "0x5FbDB2315678afecb367f032d93F642f64180aa3",
        "ac0974bec39a17e36ba4a6b4d238ff944bacb478cbed5efcae784d7bf4f2ff80", 31337⟩,
        "0xf39Fd6e51aad88F6F4ce6aB8827279cffFb92266"⟩ sampleEnv
        "test.receiver.eth.31337.EURC.0x70997970C51812dc3A010C7d01b50e0d17dc79C8.abc123" 5 7 :=
  c4_chain_mismatch_no_abort sampleService sampleEnv
    "test.receiver.eth.31337.EURC.0x70997970C51812dc3A010C7d01b50e0d17dc79C8.abc123" 5 7
    ⟨31337, "EURC", "0x70997970C51812dc3A010C7d01b50e0d17dc79C8"⟩ (by decide) (by decide)

/-- C5 (counterexample): a decodable recipient beginning `0x0x` — the
encoder strips BOTH leading `0x` runs (`trim_start_matches`), so the
encoded data differs from "the recipient with its `0x` prefix removed,
left-padded to 64". -/
theorem c5_counterexample :
    EthereumDestination.parse "a.b.eth.1.X.0x0xaaaaaaaaaaaaaaaaaaaaaaaaaaaaaaaaaaaaaa.t" =
      some ⟨1, "X", "0x0xaaaaaaaaaaaaaaaaaaaaaaaaaaaaaaaaaaaaaa"⟩
    ∧ encode_call_data (List.replicate 32 0)
        "0x0xaaaaaaaaaaaaaaaaaaaaaaaaaaaaaaaaaaaaaa" 5 ≠
      String.mk ("b77276d8".data ++ hexEncodeBytes (List.replicate 32 0) ++
        padZeros64 (("0x0xaaaaaaaaaaaaaaaaaaaaaaaaaaaaaaaaaaaaaa".data).drop 2) ++
        padZeros64 (natHex 5)) := by
  constructor <;> decide

/-- C5 (amended): the call data is the 8-character selector, the payment
id as 64 hex characters, the recipient with ALL leading `0x` runs
stripped left-padded to 64, and the amount in hex left-padded to 64 —
200 characters in total for every decoded-shape recipient. -/
theorem c5_call_data_shape (payment_id : List Nat) (recipient : String) (amount : Nat)
    (hpid : payment_id.length = 32)
    (hrec : hasPrefixL recipient.data "0x".data = true)
    (hreclen : rustLen recipient = 42)
    (hamount : amount < 18446744073709551616) :
    encode_call_data payment_id recipient amount =
      String.mk ("b77276d8".data ++ hexEncodeBytes payment_id ++
        padZeros64 (trimStartMatches recipient.data "0x".data) ++
        padZeros64 (natHex amount))
    ∧ (encode_call_data payment_id recipient amount).length = 200 := by
  refine ⟨rfl, ?_⟩
  have h1 : (trimStartMatches recipient.data "0x".data).length ≤ 64 := by
    have ht := trimStartMatches_length_le recipient.data "0x".data
    have hc := length_le_listUtf8 recipient.data
    unfold rustLen at hreclen
    omega
  have h2 : (natHex amount).length ≤ 64 := by
    have := natHex_length_le16 amount hamount
    omega
  have hsel : ("b77276d8".data).length = 8 := by decide
  show (String.mk _).length = 200
  simp only [encode_call_data, String.length, List.length_append]
  rw [hexEncodeBytes_length, hpid, padZeros64_length _ h1, padZeros64_length _ h2, hsel]

/-- C5 witness: the amended encoding shape at a concrete payment id,
recipient, and amount. -/
theorem c5_witness :
    encode_call_data (List.replicate 32 0)
      "0x70997970C51812dc3A010C7d01b50e0d17dc79C8" 5 =
      String.mk ("b77276d8".data ++ hexEncodeBytes (List.replicate 32 0) ++
        padZeros64 (trimStartMatches
          ("0x70997970C51812dc3A010C7d01b50e0d17dc79C8").data "0x".data) ++
        padZeros64 (natHex 5))
    ∧ (encode_call_data (List.replicate 32 0)
        "0x70997970C51812dc3A010C7d01b50e0d17dc79C8" 5).length = 200 :=
  c5_call_data_shape (List.replicate 32 0) "0x70997970C51812dc3A010C7d01b50e0d17dc79C8" 5
    (by decide) (by decide) (by decide) (by decide)

/-- C6: the payment id is exactly the 32-byte SHA-256 digest of the
destination bytes followed by the big-endian 8-byte sequence number;
the function is total (its panic guard never fires) and, being a pure
function of its two arguments, deterministic. -/
theorem c6_payment_id (destination : String) (sequence : Nat) :
    generate_payment_id destination sequence =
      some (sha256 (listUtf8 destination.data ++ toBeBytes8 sequence))
    ∧ (sha256 (listUtf8 destination.data ++ toBeBytes8 sequence)).length = 32 :=
  ⟨generate_payment_id_eq destination sequence, sha256_length _⟩

/-- C7: `maybe_execute_payout` always returns unit to its caller — for
every registry state (uninitialized, disabled, or ready) and every RPC
outcome, no error or panic escapes. -/
theorem c7_never_propagates (registry : Option (Option EthereumPayoutService))
    (env : RpcEnv) (destination : String) (amount sequence : Nat) :
    maybe_execute_payout registry env destination amount sequence = some () := by
  unfold maybe_execute_payout maybe_execute_payout_trace
  by_cases h : containsSubL destination.data (".eth.").data = false
  · rw [if_pos h]
  · rw [if_neg h]
    cases registry with
    | none => rfl
    | some inner =>
      cases inner with
      | none => rfl
      | some svc =>
        obtain ⟨r, hr⟩ := execute_payout_isSome svc env destination amount sequence
        dsimp only
        rw [hr]
